import Mathlib

/-!
Shallow embedding of the core of the timespy repository:
the Canvas Bank (`src/modules/canvasManager.js`), the Slicing Processor
(`src/modules/frameProcessor.js`), the Ping-Pong Renderer
(`AnimationRenderer` in `animationRenderer.js`) and the frame-dropping
logic of the Frame Source (`CameraManager.getFrameStream` in
`src/modules/camera.js`).

JS numbers that hold integer quantities are modelled as `Int`.
A raster is modelled at the byte level: a linear byte array `Int → Int`
laid out row-major with 4 bytes per pixel, exactly the layout that
`ImageData.data` exposes and that `writePixelRow` indexes into.
A canvas stores its pixels as a function from (row, column) to the
RGBA pixel value encoded as a single integer (`encode4`).
Exceptions thrown by platform drawing primitives are not part of the
model (the code catches them per call and returns `false`); an injected
fault flag stands in for a thrown error where a claim is about the
catch path itself.
-/

namespace Timespy

/-- Four consecutive bytes of a linear byte array, starting at `base`,
packed little-endian into a single integer: the RGBA value of one pixel. -/
def encode4 (d : Int → Int) (base : Int) : Int :=
  d base + 256 * d (base + 1) + 65536 * d (base + 2) + 16777216 * d (base + 3)

/-- The JS expression `width || this.width` used by both row-writing
functions: `null` (here `none`) and `0` are falsy and fall back to the
bank width. -/
def jsOrWidth (w? : Option Int) (dflt : Int) : Int :=
  match w? with
  | none => dflt
  | some w => if w = 0 then dflt else w

/-- One drawable surface of the bank: a DOM canvas.  `display` models
`canvas.style.display === block`; `pix row col` is the pixel value. -/
structure Canvas where
  display : Bool
  pix : Int → Int → Int

/-- A freshly created canvas: hidden (display set to none) and
cleared (`ctx.clearRect`), all pixels 0. -/
def blankCanvas : Canvas := ⟨false, fun _ _ => 0⟩

/-- An incoming `VideoFrame`: display dimensions plus the underlying
byte array (row-major, 4 bytes per pixel over `displayWidth`). -/
structure VideoFrame where
  displayWidth : Int
  displayHeight : Int
  data : Int → Int

/-- The pixel of a frame at (row, col), read from the byte array. -/
def VideoFrame.pixAt (f : VideoFrame) (r c : Int) : Int :=
  encode4 f.data ((r * f.displayWidth + c) * 4)

/-- An `ImageData` source as consumed by `writePixelRow`: dimensions plus
the linear byte array `data`. -/
structure ImageData where
  width : Int
  height : Int
  data : Int → Int

/-- State of `CanvasManager` (canvasManager.js).  The `contexts` array is
not modelled separately: a context is valid exactly when its canvas is. -/
structure CanvasManager where
  canvases : List Canvas
  canvasCount : Int
  width : Int
  height : Int
  isInitialized : Bool
  currentlyVisibleIndex : Int

/-- State after `new CanvasManager()`: empty bank, 30 surfaces planned, no surface
visible. -/
def CanvasManager.mk0 : CanvasManager := ⟨[], 30, 0, 0, false, -1⟩

/-- Replace the element at position `n` (no-op when out of range), as JS
element assignment does on an in-range index. -/
def listModify (f : Canvas → Canvas) : Nat → List Canvas → List Canvas
  | _, [] => []
  | 0, c :: cs => f c :: cs
  | n + 1, c :: cs => c :: listModify f n cs

/-- The assignment `this.canvases[i].style.display = b` for an integer index `i`. -/
def CanvasManager.setDisplay (cm : CanvasManager) (i : Int) (b : Bool) : CanvasManager :=
  { cm with canvases := listModify (fun cv => { cv with display := b }) i.toNat cm.canvases }

/-- Model of `cleanup()`: removes every canvas, resets the visible index to −1 and
marks the bank uninitialized.  Width and height are retained, as in the
source. -/
def CanvasManager.cleanup (cm : CanvasManager) : CanvasManager :=
  { cm with canvases := [], currentlyVisibleIndex := -1, isInitialized := false }

/-- Model of `initialize(width, height)`: records the dimensions, calls `cleanup()`,
then creates `canvasCount` hidden blank canvases and marks the bank
initialized. -/
def CanvasManager.initWith (cm : CanvasManager) (w h : Int) : CanvasManager :=
  let cm1 := CanvasManager.cleanup { cm with width := w, height := h }
  { cm1 with
      canvases := List.replicate cm1.canvasCount.toNat blankCanvas
      isInitialized := true }

/-- Result of `showCanvas`: the new state, the returned boolean, and the
number of `style.display` assignments performed (visibility toggles). -/
structure ShowRes where
  cm : CanvasManager
  ok : Bool
  toggles : Nat

/-- Model of `showCanvas(index)` (canvasManager.js lines 262-284): refuse invalid
index or uninitialized bank; no-op when the index is already visible;
otherwise hide the previously visible canvas when its index is in range
(one toggle), then show the requested canvas (one more toggle) and record
it as visible. -/
def CanvasManager.showCanvas (cm : CanvasManager) (index : Int) : ShowRes :=
  if cm.isInitialized = false ∨ index < 0 ∨ cm.canvasCount ≤ index then
    ⟨cm, false, 0⟩
  else if cm.currentlyVisibleIndex = index then
    ⟨cm, true, 0⟩
  else if 0 ≤ cm.currentlyVisibleIndex ∧ cm.currentlyVisibleIndex < cm.canvasCount then
    ⟨{ (cm.setDisplay cm.currentlyVisibleIndex false).setDisplay index true with
        currentlyVisibleIndex := index }, true, 2⟩
  else
    ⟨{ cm.setDisplay index true with currentlyVisibleIndex := index }, true, 1⟩

/-- Model of `hideAllCanvases()` (canvasManager.js lines 289-295): hides the
currently visible canvas, if its index is in range, and resets the index
to −1; does nothing otherwise. -/
def CanvasManager.hideAllCanvases (cm : CanvasManager) : CanvasManager :=
  if 0 ≤ cm.currentlyVisibleIndex ∧ cm.currentlyVisibleIndex < cm.canvasCount then
    { cm.setDisplay cm.currentlyVisibleIndex false with currentlyVisibleIndex := -1 }
  else cm

/-- Model of `writeFrameRow(canvasIndex, frame, sourceRow, targetRow, startX, width)`
(canvasManager.js lines 142-192).  The platform call
`ctx.drawImage(frame, startX, sourceRow, copyWidth, 1, startX, targetRow,
copyWidth, 1)` is modelled as the exact one-scanline blit it performs:
for each column `c` in `[startX, startX + copyWidth)`, the target pixel at
(`targetRow`, `c`) becomes the frame pixel at (`sourceRow`, `c`). -/
def CanvasManager.writeFrameRow (cm : CanvasManager) (canvasIndex : Int)
    (frame : VideoFrame) (sourceRow targetRow : Int)
    (startX : Int := 0) (w? : Option Int := none) : CanvasManager × Bool :=
  if cm.isInitialized = false ∨ canvasIndex < 0 ∨ cm.canvasCount ≤ canvasIndex then
    (cm, false)
  else
    let copyWidth := jsOrWidth w? cm.width
    if sourceRow < 0 ∨ frame.displayHeight ≤ sourceRow ∨
        targetRow < 0 ∨ cm.height ≤ targetRow ∨
        startX < 0 ∨ cm.width < startX + copyWidth then
      (cm, false)
    else
      let newPix : Canvas → Int → Int → Int := fun cv r c =>
        if r = targetRow ∧ startX ≤ c ∧ c < startX + copyWidth then
          frame.pixAt sourceRow c
        else cv.pix r c
      let cs := listModify (fun cv => { cv with pix := newPix cv }) canvasIndex.toNat cm.canvases
      ({ cm with canvases := cs }, true)

/-- Model of `writePixelRow(canvasIndex, sourceImageData, sourceRow, targetRow,
startX, width)` (canvasManager.js lines 97-131).  The byte loop fills a
one-row `ImageData` whose byte `i` is
`sourceImageData.data[sourceRow * width * 4 + startX * 4 + i]`; then
`putImageData(rowImageData, startX, targetRow)` stores pixel `j` of that
row (bytes `4j .. 4j+3`) at (`targetRow`, `startX + j`). -/
def CanvasManager.writePixelRow (cm : CanvasManager) (canvasIndex : Int)
    (src : ImageData) (sourceRow targetRow : Int)
    (startX : Int := 0) (w? : Option Int := none) : CanvasManager × Bool :=
  if cm.isInitialized = false ∨ canvasIndex < 0 ∨ cm.canvasCount ≤ canvasIndex then
    (cm, false)
  else
    let copyWidth := jsOrWidth w? cm.width
    if sourceRow < 0 ∨ src.height ≤ sourceRow ∨
        targetRow < 0 ∨ cm.height ≤ targetRow ∨
        startX < 0 ∨ cm.width < startX + copyWidth then
      (cm, false)
    else
      let rowData : Int → Int := fun i => src.data (sourceRow * src.width * 4 + startX * 4 + i)
      let newPix : Canvas → Int → Int → Int := fun cv r c =>
        if r = targetRow ∧ startX ≤ c ∧ c < startX + copyWidth then
          encode4 rowData (4 * (c - startX))
        else cv.pix r c
      let cs := listModify (fun cv => { cv with pix := newPix cv }) canvasIndex.toNat cm.canvases
      ({ cm with canvases := cs }, true)

/-- The formula the spec states for the per-canvas source row,
`sourceRow(canvasIndex) = floor(canvasIndex/30 * H)`, in exact integer
arithmetic as floor division.  The code (frameProcessor.js line 91)
evaluates the formula in IEEE-754 doubles — modelled separately by
`sourceRowFP` — which differs from this exact value at some reachable
inputs. -/
def sourceRowJS (canvasIndex frameHeight : Int) : Int :=
  Int.fdiv (canvasIndex * frameHeight) 30

/-- Fuel-bounded floor base-2 logarithm (the fuel only drives the
recursion; 128 covers every magnitude used here). -/
def log2Fuel : Nat → Nat → Nat
  | 0, _ => 0
  | fuel + 1, n => if n < 2 then 0 else log2Fuel fuel (n / 2) + 1

/-- Round nn/dd to the nearest integer, ties to even — the IEEE-754
default rounding of a significand. -/
def roundNE (nn dd : Nat) : Nat :=
  let q := nn / dd
  let r := nn % dd
  if 2 * r < dd then q
  else if dd < 2 * r then q + 1
  else if q % 2 = 0 then q else q + 1

/-- The IEEE-754 binary64 value nearest to a/b (a, b positive, value in
the normal range), returned as a fraction (numerator, power-of-two
denominator): find the binade exponent e with 2^e ≤ a/b < 2^(e+1), round
the 53-bit significand a/b · 2^(52−e) to the nearest integer with ties
to even, and scale back. -/
def flScale (a b : Nat) : Nat × Nat :=
  let c : Int := (log2Fuel 128 a : Int) - (log2Fuel 128 b : Int)
  let e : Int :=
    if 0 ≤ c then (if b * 2 ^ c.toNat ≤ a then c else c - 1)
    else (if b ≤ a * 2 ^ (-c).toNat then c else c - 1)
  let s : Int := 52 - e
  let m : Nat :=
    if 0 ≤ s then roundNE (a * 2 ^ s.toNat) b
    else roundNE a (b * 2 ^ (-s).toNat)
  if 52 ≤ e then (m * 2 ^ (e - 52).toNat, 1) else (m, 2 ^ (52 - e).toNat)

/-- The JS evaluation `Math.floor((canvasIndex / 30) * frameHeight)` of
frameProcessor.js line 91 in IEEE-754 double arithmetic: canvasIndex and
30 are exact doubles, the quotient and then the product by the exact
double frameHeight are each correctly rounded (nearest, ties to even),
and Math.floor truncates the non-negative result.  Faithful on the
ranges the program uses (0 ≤ canvasIndex < 30, frameHeight well below
2^52; every intermediate value normal). -/
def sourceRowFP (canvasIndex frameHeight : Nat) : Nat :=
  if canvasIndex = 0 ∨ frameHeight = 0 then 0
  else
    let d1 := flScale canvasIndex 30
    let d2 := flScale (d1.1 * frameHeight) d1.2
    d2.1 / d2.2

/-- State of `FrameProcessor` (frameProcessor.js).  The debug element,
offscreen canvas and camera-manager reference carry no state the claims
touch; the camera shutdown on completion is an external side effect. -/
structure FrameProcessor where
  frameProcessingCount : Int
  isProcessing : Bool
  currentTargetRow : Int
  isComplete : Bool
  canvasManager : CanvasManager

/-- Result of one `processFrame` call: the new processor state, whether
`frame.close()` was invoked before returning, and how many
`writeFrameRow` calls were performed on the bank. -/
structure PFRes where
  fp : FrameProcessor
  closed : Bool
  rowWrites : Nat

/-- The loop of frameProcessor.js lines 88-98: for each `canvasIndex` in
`[0, 30)`, write row `sourceRowJS canvasIndex frameHeight` of the frame
into canvas `canvasIndex` at the shared `targetRow` (return values of the
individual writes are ignored by the caller). -/
def writeBatch (cm : CanvasManager) (frame : VideoFrame) (targetRow : Int) : CanvasManager :=
  (List.range 30).foldl
    (fun c k =>
      (c.writeFrameRow (Int.ofNat k) frame (sourceRowJS (Int.ofNat k) frame.displayHeight)
        targetRow).1)
    cm

/-- Model of `processFrame(frame)` (frameProcessor.js lines 57-134, the version
with `isComplete`).  `fault = true` injects an error thrown inside the
`try` block after the single-flight check (modelling the `catch` path);
in either case the `finally` clause clears `isProcessing` and every path
closes the frame.  The periodic debug message and the camera shutdown on
completion are logging / external effects and are not part of the state. -/
def FrameProcessor.processFrame (fp : FrameProcessor) (fault : Bool)
    (frame : VideoFrame) : PFRes :=
  if fp.isComplete then
    ⟨{ fp with isProcessing := false }, true, 0⟩
  else if fp.isProcessing then
    ⟨{ fp with isProcessing := false }, true, 0⟩
  else
    let fp1 := { fp with
      isProcessing := true
      frameProcessingCount := fp.frameProcessingCount + 1 }
    if fault then
      ⟨{ fp1 with isProcessing := false }, true, 0⟩
    else if fp1.canvasManager.isInitialized then
      let frameHeight := frame.displayHeight
      let cm1 := writeBatch fp1.canvasManager frame fp1.currentTargetRow
      let row1 := fp1.currentTargetRow + 1
      if frameHeight ≤ row1 then
        ⟨{ fp1 with
            canvasManager := cm1
            currentTargetRow := 0
            isComplete := true
            isProcessing := false }, true, 30⟩
      else
        ⟨{ fp1 with
            canvasManager := cm1
            currentTargetRow := row1
            isProcessing := false }, true, 30⟩
    else
      ⟨{ fp1 with isProcessing := false }, true, 0⟩

/-- Feed a list of frames through `processFrame`, one call per frame,
sequentially (the single-threaded schedule of the page). -/
def FrameProcessor.processAll (fp : FrameProcessor) (fs : List VideoFrame) : FrameProcessor :=
  fs.foldl (fun s f => (s.processFrame false f).fp) fp

/-- State of the Ping-Pong Renderer that the per-tick step touches
(animationRenderer.js): the current index and the direction (+1 / −1). -/
structure RState where
  currentFrameIndex : Int
  direction : Int

/-- The index/direction update at the end of `renderCurrentFrame`
(animationRenderer.js lines 426-435): advance by `direction`, then clamp
at 29 flipping to backward, or clamp at 0 flipping to forward. -/
def rcfAdvance (s : RState) : RState :=
  let idx := s.currentFrameIndex + s.direction
  if 29 ≤ idx then ⟨29, -1⟩
  else if idx ≤ 0 then ⟨0, 1⟩
  else ⟨idx, s.direction⟩

/-- One timer tick: `renderCurrentFrame()` (animationRenderer.js lines
414-440).  Returns the updated bank and renderer state together with the
index that was shown this tick (`none` when the bank is uninitialized and
the tick is a no-op). -/
def renderCurrentFrame (cm : CanvasManager) (s : RState) :
    (CanvasManager × RState) × Option Int :=
  if cm.isInitialized = false then ((cm, s), none)
  else
    let res := cm.showCanvas s.currentFrameIndex
    ((res.cm, rcfAdvance s), some s.currentFrameIndex)

/-- Run `n` renderer ticks, collecting the shown indices in order. -/
def renderTicks : Nat → CanvasManager → RState → List Int × CanvasManager × RState
  | 0, cm, s => ([], cm, s)
  | n + 1, cm, s =>
    let t := renderCurrentFrame cm s
    let rest := renderTicks n t.1.1 t.1.2
    (t.2.toList ++ rest.1, rest.2)

/-- Initial renderer state: `startRendering()` sets `currentFrameIndex = 0` and `direction = 1`
(animationRenderer.js lines 382-383). -/
def rInit : RState := ⟨0, 1⟩

/-- The `targetFPS` constant of `CameraManager.getFrameStream` (camera.js line 155). -/
def targetFPS : Int := 24

/-- The computed `frameInterval = Math.floor(30 / targetFPS)` (camera.js line 156). -/
def frameInterval : Int := Int.fdiv 30 targetFPS

/-- The body of the `while` loop of `getFrameStream` (camera.js lines
159-171) applied to the list of frames the reader will deliver, carrying
the running `frameCount`: each frame increments the counter and is
yielded when `frameCount % frameInterval === 0`, closed otherwise.
Returns (yielded frames, closed frames), each in delivery order. -/
def streamSplit {α : Type} : Int → List α → List α × List α
  | _, [] => ([], [])
  | n, f :: rest =>
    let n1 := n + 1
    let r := streamSplit n1 rest
    if n1 % frameInterval = 0 then (f :: r.1, r.2) else (r.1, f :: r.2)

/-- The generator `getFrameStream` starts with `frameCount = 0` (camera.js line 154). -/
def getFrameStream {α : Type} (frames : List α) : List α × List α :=
  streamSplit 0 frames

/-- The documented visibility invariant of the bank: the visible index is
−1 or in range, and a canvas is displayed exactly when it is the tracked
visible one.  Holds after `initWith` and is preserved by `showCanvas`,
`hideAllCanvases` and `cleanup`. -/
def CanvasManager.VisTracked (cm : CanvasManager) : Prop :=
  (cm.currentlyVisibleIndex = -1 ∨
    (0 ≤ cm.currentlyVisibleIndex ∧ cm.currentlyVisibleIndex < cm.canvasCount)) ∧
  ∀ i : Nat, i < cm.canvases.length →
    (cm.canvases.getD i blankCanvas).display = decide (cm.currentlyVisibleIndex = (i : Int))

instance (cm : CanvasManager) : Decidable cm.VisTracked := by
  unfold CanvasManager.VisTracked; infer_instance

/-- The renderer-state part of `renderTicks`: the shown indices depend
only on the renderer state once the bank is initialized. -/
def pureTicks : Nat → RState → List Int
  | 0, _ => []
  | n + 1, s => s.currentFrameIndex :: pureTicks n (rcfAdvance s)

/-- The index sequence the spec promises for the first 59 ticks:
0,1,...,29 then 28,27,...,1 then 0. -/
def expectedSeq : List Int :=
  ((List.range 30).map Int.ofNat) ++
    ((List.range 28).reverse.map (fun i => Int.ofNat (i + 1))) ++ [0]

/-- Shared byte array for concrete witnesses. -/
def wData : Int → Int := fun i => i % 256

/-- A concrete 2×2 frame for witnesses. -/
def wVF : VideoFrame := ⟨2, 2, wData⟩

/-- A concrete `ImageData` with the same dimensions and bytes as `wVF`. -/
def wImg : ImageData := ⟨2, 2, wData⟩

/-- A concrete initialized 2×2 bank for witnesses. -/
def wCM : CanvasManager := CanvasManager.mk0.initWith 2 2

/-- A concrete freshly started processor over `wCM` for witnesses. -/
def wFP : FrameProcessor := ⟨0, false, 0, false, wCM⟩

theorem listModify_length (f : Canvas → Canvas) :
    ∀ (n : Nat) (l : List Canvas), (listModify f n l).length = l.length
  | _, [] => by simp [listModify]
  | 0, _ :: _ => rfl
  | n + 1, _ :: cs => by simp [listModify, listModify_length f n cs]

theorem listModify_getD (f : Canvas → Canvas) :
    ∀ (n : Nat) (l : List Canvas) (i : Nat),
      (listModify f n l).getD i blankCanvas =
        if i = n ∧ n < l.length then f (l.getD i blankCanvas)
        else l.getD i blankCanvas
  | _, [], _ => by simp [listModify]
  | 0, c :: cs, 0 => by simp [listModify]
  | 0, c :: cs, i + 1 => by simp [listModify]
  | n + 1, c :: cs, 0 => by simp [listModify]
  | n + 1, c :: cs, i + 1 => by
      have h : (i + 1 = n + 1 ∧ n + 1 < (c :: cs).length) ↔ (i = n ∧ n < cs.length) := by
        simp [Nat.succ_lt_succ_iff]
      simp only [listModify, List.getD_cons_succ, h]
      exact listModify_getD f n cs i

theorem showCanvas_fields (cm : CanvasManager) (i : Int) :
    (cm.showCanvas i).cm.isInitialized = cm.isInitialized ∧
    (cm.showCanvas i).cm.canvasCount = cm.canvasCount ∧
    (cm.showCanvas i).cm.width = cm.width ∧
    (cm.showCanvas i).cm.height = cm.height ∧
    (cm.showCanvas i).cm.canvases.length = cm.canvases.length := by
  unfold CanvasManager.showCanvas CanvasManager.setDisplay
  split
  · exact ⟨rfl, rfl, rfl, rfl, rfl⟩
  · split
    · exact ⟨rfl, rfl, rfl, rfl, rfl⟩
    · split <;> simp [listModify_length]


theorem writeFrameRow_fields (cm : CanvasManager) (canvasIndex : Int)
    (frame : VideoFrame) (sourceRow targetRow startX : Int) (w? : Option Int) :
    (cm.writeFrameRow canvasIndex frame sourceRow targetRow startX w?).1.isInitialized
        = cm.isInitialized ∧
    (cm.writeFrameRow canvasIndex frame sourceRow targetRow startX w?).1.canvasCount
        = cm.canvasCount ∧
    (cm.writeFrameRow canvasIndex frame sourceRow targetRow startX w?).1.width = cm.width ∧
    (cm.writeFrameRow canvasIndex frame sourceRow targetRow startX w?).1.height = cm.height ∧
    (cm.writeFrameRow canvasIndex frame sourceRow targetRow startX w?).1.currentlyVisibleIndex
        = cm.currentlyVisibleIndex ∧
    (cm.writeFrameRow canvasIndex frame sourceRow targetRow startX w?).1.canvases.length
        = cm.canvases.length := by
  simp only [CanvasManager.writeFrameRow]
  split
  · exact ⟨rfl, rfl, rfl, rfl, rfl, rfl⟩
  · split
    · exact ⟨rfl, rfl, rfl, rfl, rfl, rfl⟩
    · simp [listModify_length]

theorem writeBatch_fields (cm : CanvasManager) (frame : VideoFrame) (targetRow : Int) :
    (writeBatch cm frame targetRow).isInitialized = cm.isInitialized ∧
    (writeBatch cm frame targetRow).canvasCount = cm.canvasCount ∧
    (writeBatch cm frame targetRow).width = cm.width ∧
    (writeBatch cm frame targetRow).height = cm.height := by
  have aux : ∀ (l : List Nat) (c : CanvasManager),
      (l.foldl (fun c k =>
        (c.writeFrameRow (Int.ofNat k) frame (sourceRowJS (Int.ofNat k) frame.displayHeight)
          targetRow).1) c).isInitialized = c.isInitialized ∧
      (l.foldl (fun c k =>
        (c.writeFrameRow (Int.ofNat k) frame (sourceRowJS (Int.ofNat k) frame.displayHeight)
          targetRow).1) c).canvasCount = c.canvasCount ∧
      (l.foldl (fun c k =>
        (c.writeFrameRow (Int.ofNat k) frame (sourceRowJS (Int.ofNat k) frame.displayHeight)
          targetRow).1) c).width = c.width ∧
      (l.foldl (fun c k =>
        (c.writeFrameRow (Int.ofNat k) frame (sourceRowJS (Int.ofNat k) frame.displayHeight)
          targetRow).1) c).height = c.height := by
    intro l
    induction l with
    | nil => intro c; exact ⟨rfl, rfl, rfl, rfl⟩
    | cons k rest ih =>
      intro c
      have hf := writeFrameRow_fields c (Int.ofNat k) frame
        (sourceRowJS (Int.ofNat k) frame.displayHeight) targetRow 0 none
      have hr := ih ((c.writeFrameRow (Int.ofNat k) frame
        (sourceRowJS (Int.ofNat k) frame.displayHeight) targetRow).1)
      simp only [List.foldl_cons]
      exact ⟨hr.1.trans hf.1, hr.2.1.trans hf.2.1, hr.2.2.1.trans hf.2.2.1,
        hr.2.2.2.trans hf.2.2.2.1⟩
  exact aux (List.range 30) cm

theorem frameInterval_eq_one : frameInterval = 1 := by decide

theorem streamSplit_yields_all {α : Type} :
    ∀ (n : Int) (l : List α), streamSplit n l = (l, [])
  | _, [] => rfl
  | n, f :: rest => by
      simp [streamSplit, streamSplit_yields_all (n + 1) rest, frameInterval_eq_one]

theorem renderTicks_shown (n : Nat) :
    ∀ (cm : CanvasManager) (s : RState), cm.isInitialized = true →
      (renderTicks n cm s).1 = pureTicks n s := by
  induction n with
  | zero => intro cm s _; rfl
  | succ n ih =>
    intro cm s h
    have hpres : ((cm.showCanvas s.currentFrameIndex).cm).isInitialized = true := by
      rw [(showCanvas_fields cm s.currentFrameIndex).1, h]
    simp [renderTicks, renderCurrentFrame, h, pureTicks, ih _ _ hpres]

/-- C2 evaluation at the failing input: the claim says the source row
written into surface canvasIndex is the exact floor(canvasIndex/30 · H)
for every frame height H > 0, but the code evaluates the formula in
IEEE-754 doubles and diverges at reachable heights: for a 720-row frame,
canvas 21 receives source row 503 while floor(21/30·720) = 504 (in
doubles, 21/30 rounds to just below 0.7 and 0.6999999999999999556·720 =
503.99999999999994); likewise canvas 22 at the reachable height 600 gets
439, not 440.  At the claimed H = 480 scenario the double evaluation and
the exact formula agree on every canvas index (values 0, 240, 464). -/
theorem claim_C2_code_floor_divergence :
    sourceRowFP 21 720 = 503 ∧ sourceRowJS 21 720 = 504 ∧
    sourceRowFP 22 600 = 439 ∧ sourceRowJS 22 600 = 440 ∧
    sourceRowFP 0 480 = 0 ∧ sourceRowFP 15 480 = 240 ∧ sourceRowFP 29 480 = 464 ∧
    ((List.range 30).all
      fun k => sourceRowFP k 480 = Int.toNat (sourceRowJS (Int.ofNat k) 480)) = true := by
  refine ⟨by decide, by decide, by decide, by decide, by decide, by decide, by decide,
    by decide⟩

/-- C4: a frame arriving while `isProcessing` is true is closed and the
call performs no row write and leaves the bank, the target row, the
completion flag and the processing count unchanged (only the `finally`
clause clears `isProcessing`). -/
theorem claim_C4_dropped_frame_no_mutation (fp : FrameProcessor) (fault : Bool)
    (frame : VideoFrame) (h : fp.isProcessing = true) :
    (fp.processFrame fault frame).closed = true ∧
    (fp.processFrame fault frame).rowWrites = 0 ∧
    (fp.processFrame fault frame).fp.canvasManager = fp.canvasManager ∧
    (fp.processFrame fault frame).fp.currentTargetRow = fp.currentTargetRow ∧
    (fp.processFrame fault frame).fp.isComplete = fp.isComplete ∧
    (fp.processFrame fault frame).fp.frameProcessingCount = fp.frameProcessingCount := by
  by_cases hc : fp.isComplete <;>
    simp [FrameProcessor.processFrame, h, hc]

/-- Witness for C4: a mid-processing state drops the incoming frame. -/
theorem claim_C4_witness :
    ({ wFP with isProcessing := true } : FrameProcessor).isProcessing = true ∧
    (({ wFP with isProcessing := true } : FrameProcessor).processFrame false wVF).rowWrites = 0 :=
  ⟨by decide,
    (claim_C4_dropped_frame_no_mutation { wFP with isProcessing := true } false wVF
      (by decide)).2.1⟩

/-- C5: every exit path of `processFrame` — already complete, dropped,
successful batch, or an error thrown during processing (the injected
fault) — closes the incoming frame before returning. -/
theorem claim_C5_frame_always_closed (fp : FrameProcessor) (fault : Bool)
    (frame : VideoFrame) : (fp.processFrame fault frame).closed = true := by
  simp only [FrameProcessor.processFrame]
  repeat' split
  all_goals rfl

/-- C6 evaluation: the code computes `frameInterval = Math.floor(30/24) = 1`,
so `frameCount % frameInterval === 0` holds for every frame and
`getFrameStream` yields every frame it reads, closing none — no
throttling below the input rate ever happens. -/
theorem claim_C6_no_frames_dropped :
    frameInterval = 1 ∧
    ∀ frames : List Nat, getFrameStream frames = (frames, []) :=
  ⟨frameInterval_eq_one, fun frames => streamSplit_yields_all 0 frames⟩

/-- C9: `showCanvas` on an out-of-range index or an uninitialized bank,
and `writeFrameRow` on an out-of-range index, an out-of-range source or
target row, or an uninitialized bank, return false and leave the bank
(state, visible index, every surface) unchanged; in particular after
`cleanup()`, `showCanvas 0` returns false and the visible index stays −1. -/
theorem claim_C9_invalid_ops_fail_unchanged :
    (∀ (cm : CanvasManager) (index : Int),
      (cm.isInitialized = false ∨ index < 0 ∨ cm.canvasCount ≤ index) →
      cm.showCanvas index = ⟨cm, false, 0⟩) ∧
    (∀ (cm : CanvasManager) (canvasIndex : Int) (frame : VideoFrame)
        (sourceRow targetRow : Int),
      ((cm.isInitialized = false ∨ canvasIndex < 0 ∨ cm.canvasCount ≤ canvasIndex) ∨
        (sourceRow < 0 ∨ frame.displayHeight ≤ sourceRow ∨
          targetRow < 0 ∨ cm.height ≤ targetRow)) →
      cm.writeFrameRow canvasIndex frame sourceRow targetRow = (cm, false)) ∧
    (∀ cm : CanvasManager,
      (cm.cleanup.showCanvas 0).ok = false ∧
      (cm.cleanup.showCanvas 0).cm = cm.cleanup ∧
      (cm.cleanup.showCanvas 0).cm.currentlyVisibleIndex = -1) := by
  refine ⟨?_, ?_, ?_⟩
  · intro cm index h
    unfold CanvasManager.showCanvas
    rw [if_pos h]
  · intro cm canvasIndex frame sourceRow targetRow h
    simp only [CanvasManager.writeFrameRow]
    rcases h with h1 | h2
    · rw [if_pos h1]
    · split
      · rfl
      · rw [if_pos (by tauto)]
  · intro cm
    have hshow : cm.cleanup.showCanvas 0 = ⟨cm.cleanup, false, 0⟩ := by
      unfold CanvasManager.showCanvas
      rw [if_pos (Or.inl (show cm.cleanup.isInitialized = false from rfl))]
    exact ⟨by rw [hshow], by rw [hshow], by rw [hshow]; rfl⟩

/-- Witness for C9: an uninitialized bank refuses `showCanvas 0`, the
2×2 bank refuses a negative source row, and a cleaned-up bank refuses
`showCanvas 0` leaving the visible index at −1. -/
theorem claim_C9_witness :
    CanvasManager.mk0.showCanvas 0 = ⟨CanvasManager.mk0, false, 0⟩ ∧
    wCM.writeFrameRow 0 wVF (-1) 0 = (wCM, false) ∧
    (wCM.cleanup.showCanvas 0).ok = false :=
  ⟨claim_C9_invalid_ops_fail_unchanged.1 CanvasManager.mk0 0 (Or.inl rfl),
    claim_C9_invalid_ops_fail_unchanged.2.1 wCM 0 wVF (-1) 0 (Or.inr (by decide)),
    (claim_C9_invalid_ops_fail_unchanged.2.2 wCM).1⟩

/-- C8: `hideAllCanvases` is idempotent on every bank state, and under the
tracked-visibility invariant one call already leaves no surface visible
and the visible index at −1. -/
theorem claim_C8_hideAll_idempotent :
    (∀ cm : CanvasManager, cm.hideAllCanvases.hideAllCanvases = cm.hideAllCanvases) ∧
    (∀ cm : CanvasManager, cm.VisTracked →
      cm.hideAllCanvases.currentlyVisibleIndex = -1 ∧
      ∀ i : Nat, i < cm.hideAllCanvases.canvases.length →
        (cm.hideAllCanvases.canvases.getD i blankCanvas).display = false) := by
  constructor
  · intro cm
    by_cases h : 0 ≤ cm.currentlyVisibleIndex ∧ cm.currentlyVisibleIndex < cm.canvasCount
    · have h1 : cm.hideAllCanvases =
          { cm.setDisplay cm.currentlyVisibleIndex false with currentlyVisibleIndex := -1 } := by
        unfold CanvasManager.hideAllCanvases
        rw [if_pos h]
      rw [h1]
      unfold CanvasManager.hideAllCanvases
      rw [if_neg (by simp [CanvasManager.setDisplay])]
    · have h1 : cm.hideAllCanvases = cm := by
        unfold CanvasManager.hideAllCanvases
        rw [if_neg h]
      rw [h1, h1]
  · rintro cm ⟨hrange, hdisp⟩
    by_cases h : 0 ≤ cm.currentlyVisibleIndex ∧ cm.currentlyVisibleIndex < cm.canvasCount
    · have h1 : cm.hideAllCanvases =
          { cm.setDisplay cm.currentlyVisibleIndex false with currentlyVisibleIndex := -1 } := by
        unfold CanvasManager.hideAllCanvases
        rw [if_pos h]
      rw [h1]
      refine ⟨rfl, ?_⟩
      intro i hi
      simp only [CanvasManager.setDisplay] at hi ⊢
      rw [listModify_length] at hi
      rw [listModify_getD]
      split
      · rfl
      · rename_i hcon
        have hne : cm.currentlyVisibleIndex ≠ (i : Int) := by omega
        rw [hdisp i hi, decide_eq_false hne]
    · have h1 : cm.hideAllCanvases = cm := by
        unfold CanvasManager.hideAllCanvases
        rw [if_neg h]
      rw [h1]
      have hm1 : cm.currentlyVisibleIndex = -1 := by tauto
      refine ⟨hm1, ?_⟩
      intro i hi
      rw [hdisp i hi, decide_eq_false (by omega)]

/-- Witness for C8: the fresh 2×2 bank satisfies the invariant and one
`hideAllCanvases` leaves the visible index at −1. -/
theorem claim_C8_witness :
    wCM.VisTracked ∧ wCM.hideAllCanvases.currentlyVisibleIndex = -1 :=
  ⟨by decide, (claim_C8_hideAll_idempotent.2 wCM (by decide)).1⟩

/-- C3: from index 0 going forward on an initialized bank, the first 58
ticks show 0,1,...,29,28,...,1 and tick 59 shows 0 again (period 58);
every step leaves the index in [0, 29], and whenever a step flips the
direction the new index is one of the two boundaries 0 and 29. -/
theorem claim_C3_pingpong_sequence :
    (∀ cm : CanvasManager, cm.isInitialized = true →
      (renderTicks 59 cm rInit).1 = expectedSeq) ∧
    (∀ s : RState, 0 ≤ (rcfAdvance s).currentFrameIndex ∧
      (rcfAdvance s).currentFrameIndex ≤ 29) ∧
    (∀ s : RState, (rcfAdvance s).direction ≠ s.direction →
      (rcfAdvance s).currentFrameIndex = 0 ∨ (rcfAdvance s).currentFrameIndex = 29) := by
  refine ⟨?_, ?_, ?_⟩
  · intro cm h
    rw [renderTicks_shown 59 cm rInit h]
    decide
  · intro s
    simp only [rcfAdvance]
    split
    · exact ⟨by norm_num, le_refl 29⟩
    · split
      · exact ⟨le_refl 0, by norm_num⟩
      · rename_i h1 h2
        refine ⟨?_, ?_⟩ <;> · dsimp only; omega
  · intro s h
    simp only [rcfAdvance] at h ⊢
    split_ifs at h ⊢ with h1 h2
    · exact Or.inr rfl
    · exact Or.inl rfl
    · exact absurd rfl h

/-- Witness for C3 on the concrete 2×2 bank, and a concrete flip at the
upper boundary. -/
theorem claim_C3_witness :
    (renderTicks 59 wCM rInit).1 = expectedSeq ∧
    ((rcfAdvance ⟨28, 1⟩).currentFrameIndex = 0 ∨
      (rcfAdvance ⟨28, 1⟩).currentFrameIndex = 29) :=
  ⟨claim_C3_pingpong_sequence.1 wCM (by decide),
    claim_C3_pingpong_sequence.2.2 ⟨28, 1⟩ (by decide)⟩

/-- C7: on an initialized bank satisfying the tracked-visibility
invariant, `showCanvas k` for in-range k succeeds and leaves exactly
surface k visible, and a second `showCanvas k` returns true with zero
visibility toggles and the state unchanged. -/
theorem claim_C7_show_twice (cm : CanvasManager) (k : Int)
    (hinit : cm.isInitialized = true) (hinv : cm.VisTracked)
    (hlen : cm.canvases.length = cm.canvasCount.toNat)
    (hk0 : 0 ≤ k) (hk : k < cm.canvasCount) :
    (cm.showCanvas k).ok = true ∧
    (cm.showCanvas k).cm.currentlyVisibleIndex = k ∧
    (∀ i : Nat, i < (cm.showCanvas k).cm.canvases.length →
      ((cm.showCanvas k).cm.canvases.getD i blankCanvas).display = decide (k = (i : Int))) ∧
    (cm.showCanvas k).cm.showCanvas k = ⟨(cm.showCanvas k).cm, true, 0⟩ := by
  have hcond : ¬(cm.isInitialized = false ∨ k < 0 ∨ cm.canvasCount ≤ k) := by
    rintro (h1 | h2 | h3)
    · exact Bool.noConfusion (hinit.symm.trans h1)
    · omega
    · omega
  have hkn : k.toNat < cm.canvases.length := by omega
  have h4gen : ∀ S : CanvasManager, S.isInitialized = true →
      S.canvasCount = cm.canvasCount → S.currentlyVisibleIndex = k →
      S.showCanvas k = ⟨S, true, 0⟩ := by
    intro S hS1 hS2 hS3
    unfold CanvasManager.showCanvas
    rw [if_neg (by rintro (h1 | h2 | h3)
                   · exact Bool.noConfusion (hS1.symm.trans h1)
                   · omega
                   · rw [hS2] at h3; omega),
      if_pos hS3]
  by_cases heq : cm.currentlyVisibleIndex = k
  · have hshow : cm.showCanvas k = ⟨cm, true, 0⟩ := by
      unfold CanvasManager.showCanvas
      rw [if_neg hcond, if_pos heq]
    rw [hshow]
    refine ⟨rfl, heq, ?_, h4gen cm hinit rfl heq⟩
    intro i hi
    rw [hinv.2 i hi, heq]
  · by_cases hvis : 0 ≤ cm.currentlyVisibleIndex ∧ cm.currentlyVisibleIndex < cm.canvasCount
    · have hshow : cm.showCanvas k =
          ⟨{ (cm.setDisplay cm.currentlyVisibleIndex false).setDisplay k true with
              currentlyVisibleIndex := k }, true, 2⟩ := by
        unfold CanvasManager.showCanvas
        rw [if_neg hcond, if_neg heq, if_pos hvis]
      rw [hshow]
      refine ⟨rfl, rfl, ?_, h4gen _ hinit rfl rfl⟩
      intro i hi
      simp only [CanvasManager.setDisplay] at hi ⊢
      rw [listModify_length, listModify_length] at hi
      rw [listModify_getD]
      rw [listModify_length]
      split
      · rename_i hc
        have : k = (i : Int) := by omega
        simp [this]
      · rename_i hc
        rw [listModify_getD]
        have hki : k ≠ (i : Int) := by omega
        split
        · rename_i hc2
          simp [hki]
        · rename_i hc2
          have hvi : cm.currentlyVisibleIndex ≠ (i : Int) := by omega
          rw [hinv.2 i hi, decide_eq_false hvi, decide_eq_false hki]
    · have hm1 : cm.currentlyVisibleIndex = -1 := by
        rcases hinv.1 with h | h
        · exact h
        · exact absurd h hvis
      have hshow : cm.showCanvas k =
          ⟨{ cm.setDisplay k true with currentlyVisibleIndex := k }, true, 1⟩ := by
        unfold CanvasManager.showCanvas
        rw [if_neg hcond, if_neg heq, if_neg hvis]
      rw [hshow]
      refine ⟨rfl, rfl, ?_, h4gen _ hinit rfl rfl⟩
      intro i hi
      simp only [CanvasManager.setDisplay] at hi ⊢
      rw [listModify_length] at hi
      rw [listModify_getD]
      split
      · rename_i hc
        have : k = (i : Int) := by omega
        simp [this]
      · rename_i hc
        have hki : k ≠ (i : Int) := by omega
        have hvi : cm.currentlyVisibleIndex ≠ (i : Int) := by omega
        rw [hinv.2 i hi, decide_eq_false hvi, decide_eq_false hki]

/-- Witness for C7: showing surface 3 of the fresh 2×2 bank twice. -/
theorem claim_C7_witness :
    (wCM.showCanvas 3).ok = true ∧
    (wCM.showCanvas 3).cm.currentlyVisibleIndex = 3 ∧
    (wCM.showCanvas 3).cm.showCanvas 3 = ⟨(wCM.showCanvas 3).cm, true, 0⟩ :=
  ⟨(claim_C7_show_twice wCM 3 (by decide) (by decide) (by decide) (by decide) (by decide)).1,
    (claim_C7_show_twice wCM 3 (by decide) (by decide) (by decide) (by decide) (by decide)).2.1,
    (claim_C7_show_twice wCM 3 (by decide) (by decide) (by decide) (by decide) (by decide)).2.2.2⟩

theorem processFrame_fills (fp : FrameProcessor) (f : VideoFrame)
    (hproc : fp.isProcessing = false) (hcomp : fp.isComplete = false)
    (hinit : fp.canvasManager.isInitialized = true) :
    (fp.processFrame false f).fp.isProcessing = false ∧
    (fp.processFrame false f).fp.canvasManager.isInitialized = true ∧
    (f.displayHeight ≤ fp.currentTargetRow + 1 →
      (fp.processFrame false f).fp.currentTargetRow = 0 ∧
      (fp.processFrame false f).fp.isComplete = true) ∧
    (fp.currentTargetRow + 1 < f.displayHeight →
      (fp.processFrame false f).fp.currentTargetRow = fp.currentTargetRow + 1 ∧
      (fp.processFrame false f).fp.isComplete = false) := by
  have hwb := writeBatch_fields fp.canvasManager f fp.currentTargetRow
  simp only [FrameProcessor.processFrame, hcomp, hproc, hinit, Bool.false_eq_true,
    if_false, if_true]
  split
  · rename_i hle
    exact ⟨rfl, hwb.1.trans hinit, fun _ => ⟨rfl, rfl⟩, fun hlt => absurd hle (by omega)⟩
  · rename_i hgt
    exact ⟨rfl, hwb.1.trans hinit, fun hle => absurd hle hgt, fun _ => ⟨rfl, rfl⟩⟩

theorem processAll_fills :
    ∀ (fs : List VideoFrame) (fp : FrameProcessor) (H : Int),
      fs ≠ [] →
      (∀ f ∈ fs, f.displayHeight = H) →
      fp.isProcessing = false → fp.isComplete = false →
      fp.canvasManager.isInitialized = true →
      fp.currentTargetRow + fs.length = H →
      (fp.processAll fs).currentTargetRow = 0 ∧
      (fp.processAll fs).isComplete = true ∧
      (fp.processAll fs).isProcessing = false
  | [], _, _, hne, _, _, _, _, _ => absurd rfl hne
  | f :: rest, fp, H, _, hhts, hproc, hcomp, hinit, hsum => by
    have hf : f.displayHeight = H := hhts f (List.mem_cons_self f rest)
    have hstep := processFrame_fills fp f hproc hcomp hinit
    have hfold : fp.processAll (f :: rest) =
        ((fp.processFrame false f).fp).processAll rest := rfl
    rcases List.eq_nil_or_concat rest with hrest | _
    · subst hrest
      have hle : f.displayHeight ≤ fp.currentTargetRow + 1 := by
        simp only [List.length_cons, List.length_nil] at hsum
        omega
      have hdone := hstep.2.2.1 hle
      rw [hfold]
      exact ⟨hdone.1, hdone.2, hstep.1⟩
    · have hne2 : rest ≠ [] := by
        rename_i hcat
        rcases hcat with ⟨l, a, rfl⟩
        simp
      have hlt : fp.currentTargetRow + 1 < f.displayHeight := by
        have : 1 ≤ rest.length := by
          cases rest with
          | nil => exact absurd rfl hne2
          | cons _ _ => simp
        simp only [List.length_cons] at hsum
        omega
      have hmid := hstep.2.2.2 hlt
      rw [hfold]
      refine processAll_fills rest ((fp.processFrame false f).fp) H hne2
        (fun g hg => hhts g (List.mem_cons_of_mem f hg))
        hstep.1 hmid.2 hstep.2.1 ?_
      rw [hmid.1]
      simp only [List.length_cons] at hsum
      omega

/-- C1: a processor over an initialized bank of height H, fed exactly H
frames of display height H, ends with `currentTargetRow` back at 0 and
`isComplete` true; afterwards every further frame is closed immediately
with zero row writes and the processor state (bank included) unchanged. -/
theorem claim_C1_slicing_completes_then_freezes (H : Int) (fp : FrameProcessor)
    (fs : List VideoFrame) (hH : 0 < H)
    (hlen : (fs.length : Int) = H)
    (hhts : ∀ f ∈ fs, f.displayHeight = H)
    (hproc : fp.isProcessing = false) (hcomp : fp.isComplete = false)
    (hinit : fp.canvasManager.isInitialized = true)
    (hrow : fp.currentTargetRow = 0) :
    (fp.processAll fs).currentTargetRow = 0 ∧
    (fp.processAll fs).isComplete = true ∧
    ∀ g : VideoFrame,
      ((fp.processAll fs).processFrame false g).closed = true ∧
      ((fp.processAll fs).processFrame false g).rowWrites = 0 ∧
      ((fp.processAll fs).processFrame false g).fp = fp.processAll fs := by
  have hne : fs ≠ [] := by
    intro hnil
    rw [hnil] at hlen
    simp at hlen
    omega
  have hmain := processAll_fills fs fp H hne hhts hproc hcomp hinit (by omega)
  refine ⟨hmain.1, hmain.2.1, ?_⟩
  intro g
  have hfreeze : (fp.processAll fs).processFrame false g =
      ⟨{ fp.processAll fs with isProcessing := false }, true, 0⟩ := by
    unfold FrameProcessor.processFrame
    rw [if_pos hmain.2.1]
  have heta : ({ fp.processAll fs with isProcessing := false } : FrameProcessor) =
      fp.processAll fs := by
    have := hmain.2.2
    cases hps : fp.processAll fs
    simp_all
  rw [hfreeze, heta]
  exact ⟨rfl, rfl, rfl⟩

/-- Witness for C1: the 2×2 bank filled by two 2×2 frames, then a third
frame is dropped with no writes. -/
theorem claim_C1_witness :
    ((wFP.processAll [wVF, wVF]).currentTargetRow = 0 ∧
      (wFP.processAll [wVF, wVF]).isComplete = true) ∧
    ((wFP.processAll [wVF, wVF]).processFrame false wVF).rowWrites = 0 :=
  ⟨⟨(claim_C1_slicing_completes_then_freezes 2 wFP [wVF, wVF] (by decide) (by decide)
        (by decide) (by decide) (by decide) (by decide) (by decide)).1,
    (claim_C1_slicing_completes_then_freezes 2 wFP [wVF, wVF] (by decide) (by decide)
        (by decide) (by decide) (by decide) (by decide) (by decide)).2.1⟩,
    ((claim_C1_slicing_completes_then_freezes 2 wFP [wVF, wVF] (by decide) (by decide)
        (by decide) (by decide) (by decide) (by decide) (by decide)).2.2 wVF).2.1⟩

/-- C10: `writePixelRow` and `writeFrameRow`, given the same initialized
bank, the same index and row/column arguments, and sources of equal
dimensions with identical byte content, validate identically, return the
same boolean, and produce identical bank states — on success both write
exactly the one scanline at `targetRow` copied from the sourceRow of the source. -/
theorem claim_C10_row_writers_equivalent (cm : CanvasManager) (canvasIndex : Int)
    (img : ImageData) (frame : VideoFrame) (sourceRow targetRow startX : Int)
    (w? : Option Int)
    (hw : img.width = frame.displayWidth) (hh : img.height = frame.displayHeight)
    (hd : img.data = frame.data) :
    cm.writePixelRow canvasIndex img sourceRow targetRow startX w? =
      cm.writeFrameRow canvasIndex frame sourceRow targetRow startX w? := by
  simp only [CanvasManager.writePixelRow, CanvasManager.writeFrameRow, hh, hw, hd]
  split_ifs with h1 h2
  · rfl
  · rfl
  · have hfun : ∀ cv : Canvas,
        (fun r c =>
          if r = targetRow ∧ startX ≤ c ∧ c < startX + jsOrWidth w? cm.width then
            encode4 (fun i => frame.data (sourceRow * frame.displayWidth * 4 + startX * 4 + i))
              (4 * (c - startX))
          else cv.pix r c) =
        (fun r c =>
          if r = targetRow ∧ startX ≤ c ∧ c < startX + jsOrWidth w? cm.width then
            frame.pixAt sourceRow c
          else cv.pix r c) := by
      intro cv
      funext r c
      split
      · simp only [encode4, VideoFrame.pixAt]
        have e0 : sourceRow * frame.displayWidth * 4 + startX * 4 + 4 * (c - startX) =
            (sourceRow * frame.displayWidth + c) * 4 := by ring
        have e1 : sourceRow * frame.displayWidth * 4 + startX * 4 + (4 * (c - startX) + 1) =
            (sourceRow * frame.displayWidth + c) * 4 + 1 := by ring
        have e2 : sourceRow * frame.displayWidth * 4 + startX * 4 + (4 * (c - startX) + 2) =
            (sourceRow * frame.displayWidth + c) * 4 + 2 := by ring
        have e3 : sourceRow * frame.displayWidth * 4 + startX * 4 + (4 * (c - startX) + 3) =
            (sourceRow * frame.displayWidth + c) * 4 + 3 := by ring
        rw [e0, e1, e2, e3]
      · rfl
    simp only [hfun]

/-- Witness for C10: both writers applied to identical 2×2 sources on the
fresh 2×2 bank. -/
theorem claim_C10_witness :
    wImg.width = wVF.displayWidth ∧ wImg.height = wVF.displayHeight ∧
    wImg.data = wVF.data ∧
    wCM.writePixelRow 0 wImg 1 0 = wCM.writeFrameRow 0 wVF 1 0 :=
  ⟨rfl, rfl, rfl, claim_C10_row_writers_equivalent wCM 0 wImg wVF 1 0 0 none rfl rfl rfl⟩

end Timespy
